import Mathlib

/-
  Verification development for the paper-search repository.

  Shallow embedding of the core pipeline:
  - app/services/pdf_processor.py      (PDFProcessorService)
  - app/services/websearch/search_orchestrator.py (MultiSourceSearchOrchestrator)
  - app/services/websearch/config.py   (SearchConfig)
  - app/services/messaging/handlers.py (WebSearchMessageHandler, MessageHandlerFactory)
  - app/services/messaging/consumer.py (ScholarAIConsumer)

  External collaborators whose code lives outside this repository snapshot
  (b2_storage, pdf_collector, the provider API clients, the deduplication,
  enrichment and AI-refinement services, the broker library) are modelled as
  environment parameters: arbitrary total functions returning either a value
  or an exception marker (Except), so theorems quantify over every behavior
  of those collaborators.  Async awaits are suspension points with no shared
  mutable state in the modelled code paths, so each await is embedded as a
  call into the environment; asyncio.gather(..., return_exceptions=True) is
  embedded as the list of per-task outcomes in task-creation order.
-/

/-- Paper record: the fields of the Python paper dict that the modelled code
reads or writes.  A missing dict key and a None value both map to `none`
(the code only ever uses these fields through `.get(...)` and truthiness). -/
structure Paper where
  title : Option String
  abstract : Option String
  source : Option String
  pdfContentUrl : Option String
  pdfContent : Option String
deriving DecidableEq, Repr

/-- Python truthiness filter for an optional string: `None` and `""` are
falsy, any other string is truthy (returned unchanged). -/
def truthy : Option String → Option String
  | some s => if s = "" then none else some s
  | none => none

/-- Lowercasing as Python str.lower on the code points the repository's
data actually carries (mapped characterwise; faithful on ASCII). -/
def strLower (s : String) : String :=
  String.mk (s.data.map Char.toLower)

/-- Helper for Python str.count: scans left to right, counting
non-overlapping matches of pattern `t`; after a match the next
`t.length - 1` characters are skipped via the `skip` counter. -/
def countOccsAux (t : List Char) : List Char → Nat → Nat
  | [], _ => 0
  | _ :: s, Nat.succ skip => countOccsAux t s skip
  | c :: s, 0 =>
    if t.isPrefixOf (c :: s) then countOccsAux t s (t.length - 1) + 1
    else countOccsAux t s 0

/-- Python `text.count(pat)`: number of non-overlapping occurrences of
`pat` in `text`, scanning left to right; an empty pattern counts
`len(text) + 1` occurrences, exactly as in CPython. -/
def strCount (text pat : String) : Nat :=
  if pat.data.isEmpty then text.data.length + 1
  else countOccsAux pat.data text.data 0

/-
  PDFProcessorService (app/services/pdf_processor.py).

  Collaborators b2_storage (get_pdf_url / upload_pdf) and pdf_collector
  (collect_pdf) are outside the snapshot; they are environment functions
  that either return an optional value or raise (`Except.error`).
  `taskRaises` models an exception escaping a gathered task itself, the
  case handled by the isinstance(result, Exception) branch of
  process_papers_batch_parallel.
-/

/-- Environment of PDFProcessorService: the awaited collaborator calls made
by process_paper_pdf, plus the per-task exception switch seen by gather. -/
structure PdfEnv where
  get_pdf_url : Paper → Except Unit (Option String)
  collect_pdf : Paper → Except Unit (Option String)
  upload_pdf : Paper → String → Except Unit (Option String)
  taskRaises : Paper → Bool

/-- PDFProcessorService.process_paper_pdf: reuse an existing stored copy if
the durable store already has one, otherwise collect the PDF and upload it;
on success attach `pdfContentUrl` (and drop the old `pdfContent` field),
on any miss or exception return `none` (paper discarded). -/
def process_paper_pdf (env : PdfEnv) (paper : Paper) : Option Paper :=
  match env.get_pdf_url paper with
  | Except.error _ => none
  | Except.ok r =>
    match truthy r with
    | some url => some { paper with pdfContentUrl := some url, pdfContent := none }
    | none =>
      match env.collect_pdf paper with
      | Except.error _ => none
      | Except.ok c =>
        match truthy c with
        | none => none
        | some content =>
          match env.upload_pdf paper content with
          | Except.error _ => none
          | Except.ok u =>
            match truthy u with
            | some url => some { paper with pdfContentUrl := some url, pdfContent := none }
            | none => none

/-- Outcome of one gathered task of process_papers_batch_parallel:
either the task raised (`Except.error`, the isinstance-Exception branch)
or it settled with process_paper_pdf's optional paper. -/
def batch_task_result (env : PdfEnv) (p : Paper) : Except Unit (Option Paper) :=
  if env.taskRaises p then Except.error () else Except.ok (process_paper_pdf env p)

/-- The paper a task contributes to all_processed_papers: only a settled,
non-discarded result is kept. -/
def taskKeep (env : PdfEnv) (p : Paper) : Option Paper :=
  match batch_task_result env p with
  | Except.error _ => none
  | Except.ok r => r

/-- Chunking of `papers[i:i+batch_size]` slices in loop order.  The fuel
argument makes the recursion structural; callers pass `xs.length`, which
is enough fuel whenever `bs > 0` (for `bs = 0` Python's range raises
ValueError, so that case carries no claim content). -/
def chunkAux (bs : Nat) : Nat → List Paper → List (List Paper)
  | _, [] => []
  | 0, _ :: _ => []
  | Nat.succ fuel, x :: xs =>
    (x :: xs).take bs :: chunkAux bs fuel ((x :: xs).drop bs)

/-- PDFProcessorService.process_papers_batch_parallel: split the input into
consecutive batches of `batch_size`, gather each batch, and append only the
papers whose task settled with a PDF; exceptions and discards are counted
and dropped. -/
def process_papers_batch_parallel (env : PdfEnv) (papers : List Paper)
    (batch_size : Nat) : List Paper :=
  if papers.isEmpty then papers
  else
    (chunkAux batch_size papers.length papers).foldl
      (fun acc batch => acc ++ batch.filterMap (taskKeep env)) []

/-- Field scrubber used to state that batch processing only ever rewrites
the content fields of a paper it keeps. -/
def stripContent (p : Paper) : Paper :=
  { p with pdfContentUrl := none, pdfContent := none }

/-
  Ranking (MultiSourceSearchOrchestrator._rank_papers).
-/

/-- The text scored for one paper:
`((p.get("title") or "") + " " + (p.get("abstract") or "")).lower()`. -/
def paperText (p : Paper) : String :=
  strLower ((p.title.getD "") ++ " " ++ (p.abstract.getD ""))

/-- Relevance score of a paper: sum over the lowered query terms of the
term's occurrence count in the lowered title-space-abstract text. -/
def paperScore (query_terms : List String) (p : Paper) : Nat :=
  (query_terms.map (fun t => strCount (paperText p) (strLower t))).sum

/-- Stable descending insertion: walk past strictly better-scoring papers,
then sit in front of the first paper scoring no better.  This is the unique
stable order, hence extensionally Python's sorted(key=score, reverse=True). -/
def insertDesc (f : Paper → Nat) (p : Paper) : List Paper → List Paper
  | [] => [p]
  | q :: qs => if f p < f q then q :: insertDesc f p qs else p :: q :: qs

/-- Stable descending sort by score (see insertDesc). -/
def sortDesc (f : Paper → Nat) : List Paper → List Paper
  | [] => []
  | p :: ps => insertDesc f p (sortDesc f ps)

/-- MultiSourceSearchOrchestrator._rank_papers: empty input returned as is,
otherwise a stable sort by descending term-frequency score. -/
def rank_papers (papers : List Paper) (query_terms : List String) : List Paper :=
  if papers.isEmpty then papers
  else sortDesc (paperScore query_terms) papers

/-- Score following the claim wording only: occurrence counts taken in the
direct concatenation of title and abstract, with no separator.  Kept solely
to compare the spec sentence against the code, which inserts a space. -/
def claimScore (query_terms : List String) (p : Paper) : Nat :=
  (query_terms.map
    (fun t => strCount (strLower ((p.title.getD "") ++ (p.abstract.getD ""))) (strLower t))).sum

/-
  SearchConfig (app/services/websearch/config.py, lines 12-25), with the
  in-file defaults.
-/

/-- Configuration for paper search operations, field for field as in
config.py (booleans and counts; the fields the orchestrator reads). -/
structure SearchConfig where
  papers_per_source : Nat := 2
  max_search_rounds : Nat := 1
  target_batch_size : Nat := 5
  enable_ai_refinement : Bool := true
  recent_years_filter : Nat := 5
  retry_on_rate_limit : Bool := true
  max_rate_limit_retries : Nat := 1
  rate_limit_backoff_seconds : Nat := 2

/-
  MultiSourceSearchOrchestrator._safe_source_search and
  _search_all_sources.  A provider client call (one attempt of
  client.search_papers wrapped in asyncio.wait_for) is modelled by its
  observable outcome.
-/

/-- Outcome of one provider API call attempt: client returned (possibly
None), asyncio.wait_for timed out, the raised error's text matched the
rate-limit test ("rate limit"/"429"), or any other exception. -/
inductive CallOutcome
  | success (papers : Option (List Paper))
  | timeout
  | rateLimit
  | otherError
deriving Repr

/-- Trace of the retry loop of _safe_source_search: the value the loop
produces (`Except.error` when the loop re-raises a non-rate-limit error to
the outer handler), how many API attempts were made, and the backoff sleeps
performed between attempts. -/
structure RetryTrace where
  result : Except Unit (List Paper)
  attempts : Nat
  sleeps : List Nat

/-- The for-attempt retry loop of _safe_source_search, called with
`remaining = config.max_rate_limit_retries` retries still allowed.
Success breaks the loop and returns `papers or []`; a timeout returns []
immediately; a rate-limit failure sleeps for the backoff and retries while
retries remain, else returns []; any other error is re-raised. -/
def retryLoop (backoff : Nat) (b : Nat → CallOutcome) : Nat → Nat → RetryTrace
  | i, 0 =>
    match b i with
    | CallOutcome.success ps => ⟨Except.ok (ps.getD []), 1, []⟩
    | CallOutcome.timeout => ⟨Except.ok [], 1, []⟩
    | CallOutcome.otherError => ⟨Except.error (), 1, []⟩
    | CallOutcome.rateLimit => ⟨Except.ok [], 1, []⟩
  | i, Nat.succ r =>
    match b i with
    | CallOutcome.success ps => ⟨Except.ok (ps.getD []), 1, []⟩
    | CallOutcome.timeout => ⟨Except.ok [], 1, []⟩
    | CallOutcome.otherError => ⟨Except.error (), 1, []⟩
    | CallOutcome.rateLimit =>
      let t := retryLoop backoff b (i + 1) r
      ⟨t.result, t.attempts + 1, backoff :: t.sleeps⟩

/-- MultiSourceSearchOrchestrator._safe_source_search for one source:
`present` is `source_name in api_clients` (a missing client returns []);
the retry loop's value is returned, and the outer try/except turns any
re-raised exception into [] as well. -/
def safe_source_search (cfg : SearchConfig) (present : Bool)
    (b : Nat → CallOutcome) : List Paper :=
  if present then
    match (retryLoop cfg.rate_limit_backoff_seconds b 0 cfg.max_rate_limit_retries).result with
    | Except.ok ps => ps
    | Except.error _ => []
  else []

/-- Source tagging inside _search_all_sources: each returned paper gets
`paper["source"] = source_name`. -/
def tagSource (s : String) (ps : List Paper) : List Paper :=
  ps.map (fun p => { p with source := some s })

/-- The combine loop of _search_all_sources over the gathered results,
aligned index-wise with active_sources: a non-empty list result is tagged
and appended, an empty result is skipped.  (The isinstance-Exception branch
is dead here because safe_source_search is total.) -/
def combine_results (sources : List String) (results : List (List Paper)) : List Paper :=
  (sources.zip results).foldl
    (fun acc pr => if pr.2.isEmpty then acc else acc ++ tagSource pr.1 pr.2) []

/-- MultiSourceSearchOrchestrator._search_all_sources: fan out
_safe_source_search over every active source for one query, wait for all of
them (asyncio.gather with return_exceptions=True), then combine.  The
per-source behavior function gives each source its own attempt outcomes. -/
def search_all_sources (cfg : SearchConfig) (sources : List String)
    (presentOf : String → Bool) (env : String → Nat → CallOutcome) : List Paper :=
  combine_results sources
    (sources.map (fun s => safe_source_search cfg (presentOf s) (env s)))

/-
  MultiSourceSearchOrchestrator.search_papers, final pipeline.  The search
  rounds write only into the deduplication service (whose module is an
  external collaborator here), so the state of that service when the rounds
  finish is an arbitrary environment list `collected`; the enrichment
  collaborator is an arbitrary list transformer.
-/

/-- Environment of one search_papers invocation: the collaborator-driven
parts of the pipeline (papers accumulated by the dedup service over the
search rounds, the enrichment service) plus the PDF-processing environment
and a switch for the enforcement stage itself raising. -/
structure OrchEnv where
  pdf : PdfEnv
  pdfStageRaises : Bool
  collected : List Paper
  enrich : List Paper → List Paper

/-- MultiSourceSearchOrchestrator.search_papers after the rounds loop:
take up to `2 * target_size` collected papers (the enhanced target with
pdf_compensation_factor = 2.0), enrich, rank, then enforce the PDF
requirement; if the enforcement stage raises, return [] instead of
content-unverified papers, else truncate to the original target size. -/
def search_papers (env : OrchEnv) (query_terms : List String)
    (target_size : Nat) : List Paper :=
  let enhanced_target_size := 2 * target_size
  let all_collected_papers := env.collected.take enhanced_target_size
  let final_papers := env.enrich all_collected_papers
  let ranked := rank_papers final_papers query_terms
  if env.pdfStageRaises then []
  else
    let processed := process_papers_batch_parallel env.pdf ranked 8
    if target_size < processed.length then processed.take target_size else processed

/-
  Messaging layer (app/services/messaging/handlers.py and consumer.py).
-/

/-- A JSON field value at the granularity the validator inspects: a string,
a list (of query terms), or anything else. -/
inductive JsonField
  | str (s : String)
  | list (xs : List String)
  | other
deriving DecidableEq, Repr

/-- The parsed message body, restricted to the keys the handler reads:
`none` means the key is absent from the dict. -/
structure MessageData where
  projectId : Option JsonField
  queryTerms : Option JsonField
deriving DecidableEq, Repr

/-- WebSearchMessageHandler._validate_websearch_message: both required
fields present, and queryTerms a non-empty list. -/
def validate_websearch_message (md : MessageData) : Bool :=
  match md.projectId with
  | none => false
  | some _ =>
    match md.queryTerms with
    | none => false
    | some (JsonField.list xs) => !xs.isEmpty
    | some _ => false

/-- The claim's failure condition on a parsed body: queryTerms is absent,
not a list, or an empty list. -/
def queryTermsInvalid (md : MessageData) : Bool :=
  match md.queryTerms with
  | some (JsonField.list xs) => xs.isEmpty
  | _ => true

/-- A Python exception as classified by the handler: whether str(e)
contains "object has no attribute" or "AttributeError". -/
structure PyErr where
  attrHint : Bool
deriving DecidableEq, Repr

/-- Requeue classification of handle_message's except branch: requeue
unless the message looks like a programming/contract error. -/
def should_requeue (e : PyErr) : Bool := !e.attrHint

/-- The websearch result payload, to the extent the handler looks at it. -/
structure WSResult where
  correlationId : Option String
deriving DecidableEq, Repr

/-- Environment of WebSearchMessageHandler: whether initialize installed a
connection manager, and the two awaited collaborators (the orchestrator run
behind websearch_agent.process_request, and publish_websearch_result),
each able to raise. -/
structure HandlerEnv where
  hasCM : Bool
  process : MessageData → Except PyErr WSResult
  publish : WSResult → Except PyErr Bool

/-- Observable broker/collaborator actions of one handle_message call, in
order of occurrence. -/
inductive Event
  | orchInvoked
  | orchCompleted
  | publishInvoked
  | publishCompleted
  | acked
  | rejected (requeue : Bool)
deriving DecidableEq, Repr

/-- WebSearchMessageHandler.handle_message on an already-parsed body
(`none` = _parse_message failed and the method returns False with no
lifecycle action).  Returns the ordered event trace and the bool result. -/
def handle_message (env : HandlerEnv) (parsed : Option MessageData) :
    List Event × Bool :=
  match parsed with
  | none => ([], false)
  | some md =>
    if validate_websearch_message md then
      match env.process md with
      | Except.error e => ([Event.orchInvoked, Event.rejected (should_requeue e)], false)
      | Except.ok res =>
        if env.hasCM then
          match env.publish res with
          | Except.error e =>
            ([Event.orchInvoked, Event.orchCompleted, Event.publishInvoked,
              Event.rejected (should_requeue e)], false)
          | Except.ok _ =>
            ([Event.orchInvoked, Event.orchCompleted, Event.publishInvoked,
              Event.publishCompleted, Event.acked], true)
        else ([Event.orchInvoked, Event.orchCompleted, Event.acked], true)
    else ([Event.rejected false], false)

/-
  MessageHandlerFactory and the consumer's dispatch
  (handlers.py lines 132-179, consumer.py lines 43-50 and 99-143).
-/

/-- MessageHandlerFactory state: the registered handlers dict (as an
association list, later registrations in front) and the default handler. -/
structure HandlerFactory (H : Type) where
  handlers : List (String × H)
  defaultHandler : Option H

/-- MessageHandlerFactory.register_handler. -/
def register_handler {H : Type} (f : HandlerFactory H) (message_type : String)
    (h : H) : HandlerFactory H :=
  { f with handlers := (message_type, h) :: f.handlers }

/-- MessageHandlerFactory.set_default_handler. -/
def set_default_handler {H : Type} (f : HandlerFactory H) (h : H) :
    HandlerFactory H :=
  { f with defaultHandler := some h }

/-- MessageHandlerFactory.get_handler:
`self.handlers.get(message_type, self.default_handler)`. -/
def get_handler {H : Type} (f : HandlerFactory H) (message_type : String) :
    Option H :=
  match f.handlers.lookup message_type with
  | some h => some h
  | none => f.defaultHandler

/-- ScholarAIConsumer._setup_handlers: one websearch handler registered for
"scholarai" and also installed as the default handler. -/
def setup_handlers {H : Type} (websearch_handler : H) : HandlerFactory H :=
  set_default_handler
    (register_handler ⟨[], none⟩ "scholarai" websearch_handler)
    websearch_handler

/-- ScholarAIConsumer._extract_message_type: first dot-separated segment of
a truthy routing key, else the "websearch" fallback. -/
def extract_message_type (routing_key : Option String) : String :=
  match routing_key with
  | some rk => if rk = "" then "websearch" else (rk.splitOn ".").headD "websearch"
  | none => "websearch"

/-- Which branch of ScholarAIConsumer._process_message a delivery takes:
the no-handler-found reject branch, or dispatch to a handler. -/
inductive Dispatch (H : Type)
  | rejectedNoHandler
  | handled (h : H)
deriving DecidableEq, Repr

/-- ScholarAIConsumer._process_message up to handler dispatch: resolve the
message type from the routing key, look the handler up, reject without
requeue when none is found, else hand the delivery to the handler. -/
def process_message {H : Type} (f : HandlerFactory H) (routing_key : Option String) :
    Dispatch H :=
  match get_handler f (extract_message_type routing_key) with
  | none => Dispatch.rejectedNoHandler
  | some h => Dispatch.handled h

/-
  Concrete fixtures for witnesses and the counterexample.
-/

/-- Default search configuration (the literal defaults of config.py). -/
def wCfg : SearchConfig := {}

/-- Witness paper for the content-invariant run. -/
def wPaper : Paper := ⟨some "a", some "b", none, none, none⟩

/-- Witness PDF environment: the store already holds a copy at url "u". -/
def wPdfEnv : PdfEnv :=
  { get_pdf_url := fun _ => Except.ok (some "u")
    collect_pdf := fun _ => Except.ok none
    upload_pdf := fun _ _ => Except.ok none
    taskRaises := fun _ => false }

/-- Witness orchestrator environment: one collected paper, identity
enrichment, healthy enforcement stage. -/
def wOrchEnv : OrchEnv :=
  { pdf := wPdfEnv, pdfStageRaises := false, collected := [wPaper]
    enrich := fun l => l }

/-- The witness paper as emitted: content reference attached. -/
def wPaperOut : Paper := ⟨some "a", some "b", none, some "u", none⟩

/-- Orchestrator environment whose enforcement stage raises. -/
def wOrchEnvFail : OrchEnv :=
  { pdf := wPdfEnv, pdfStageRaises := true, collected := [wPaper]
    enrich := fun l => l }

/-- Batch witness environment: only the paper titled "k" has a stored PDF,
the paper titled "d" fails acquisition and is discarded. -/
def wPdfEnv9 : PdfEnv :=
  { get_pdf_url := fun p =>
      if p.title = some "k" then Except.ok (some "u9") else Except.ok none
    collect_pdf := fun _ => Except.ok none
    upload_pdf := fun _ _ => Except.ok none
    taskRaises := fun _ => false }

/-- Batch witness input: one surviving paper, one discarded paper. -/
def wPapers9 : List Paper :=
  [⟨some "k", none, none, none, none⟩, ⟨some "d", none, none, none, none⟩]

/-- Provider behavior that always times out. -/
def wTimeoutB : Nat → CallOutcome := fun _ => CallOutcome.timeout

/-- Provider behavior that always raises a non-rate-limit error. -/
def wErrB : Nat → CallOutcome := fun _ => CallOutcome.otherError

/-- Provider behavior that is always rate limited. -/
def wRateB : Nat → CallOutcome := fun _ => CallOutcome.rateLimit

/-- Two active sources for the fan-out witness. -/
def wSources : List String := ["arXiv", "PubMed"]

/-- Every witness source has a client. -/
def wPresent : String → Bool := fun _ => true

/-- Paper served by the healthy witness provider. -/
def wPaper4 : Paper := ⟨some "p4", none, none, none, none⟩

/-- Fan-out witness environment A: arXiv raises, every other source
succeeds with one paper. -/
def wEnvA : String → Nat → CallOutcome :=
  fun s _ =>
    if s = "arXiv" then CallOutcome.otherError
    else CallOutcome.success (some [wPaper4])

/-- Fan-out witness environment B: like A but arXiv times out instead;
A and B agree on every source other than arXiv. -/
def wEnvB : String → Nat → CallOutcome :=
  fun s _ =>
    if s = "arXiv" then CallOutcome.timeout
    else CallOutcome.success (some [wPaper4])

/-- Counterexample paper 1: a term can span the title/abstract boundary in
the claim's direct concatenation but not in the code's spaced text. -/
def cexPaper1 : Paper := ⟨some "ab", some "cd", none, none, none⟩

/-- Counterexample paper 2: carries the term inside its abstract. -/
def cexPaper2 : Paper := ⟨some "xx", some "bc", none, none, none⟩

/-- Handler environment whose collaborators all succeed. -/
def wHandlerEnv : HandlerEnv :=
  { hasCM := true
    process := fun _ => Except.ok ⟨some "c"⟩
    publish := fun _ => Except.ok true }

/-- A parsed body with projectId present but an empty queryTerms list. -/
def wBadMsg : MessageData :=
  ⟨some (JsonField.str "p1"), some (JsonField.list [])⟩

/-- A valid parsed body. -/
def wGoodMsg : MessageData :=
  ⟨some (JsonField.str "p1"), some (JsonField.list ["t"])⟩

/-
  Lemmas about the PDF enforcement stage.
-/

/-- A value accepted by Python truthiness is a non-empty string. -/
theorem truthy_some {o : Option String} {u : String} (h : truthy o = some u) :
    u ≠ "" := by
  unfold truthy at h
  cases o with
  | none => cases h
  | some s =>
    by_cases hs : s = ""
    · simp [hs] at h
    · simp [hs] at h
      subst h
      exact hs

/-- Every paper process_paper_pdf returns carries a non-empty
pdfContentUrl. -/
theorem process_paper_pdf_url (env : PdfEnv) (p q : Paper)
    (h : process_paper_pdf env p = some q) :
    ∃ url, q.pdfContentUrl = some url ∧ url ≠ "" := by
  unfold process_paper_pdf at h
  cases hg : env.get_pdf_url p with
  | error e => simp [hg] at h
  | ok r =>
    simp only [hg] at h
    cases ht : truthy r with
    | some url =>
      simp only [ht] at h
      cases h
      exact ⟨url, rfl, truthy_some ht⟩
    | none =>
      simp only [ht] at h
      cases hc : env.collect_pdf p with
      | error e => simp [hc] at h
      | ok c =>
        simp only [hc] at h
        cases htc : truthy c with
        | none => simp [htc] at h
        | some content =>
          simp only [htc] at h
          cases hu : env.upload_pdf p content with
          | error e => simp [hu] at h
          | ok u =>
            simp only [hu] at h
            cases htu : truthy u with
            | some url =>
              simp only [htu] at h
              cases h
              exact ⟨url, rfl, truthy_some htu⟩
            | none => simp [htu] at h

/-- process_paper_pdf only rewrites the two content fields of the paper it
keeps. -/
theorem process_paper_pdf_strip (env : PdfEnv) (p q : Paper)
    (h : process_paper_pdf env p = some q) :
    stripContent q = stripContent p := by
  unfold process_paper_pdf at h
  cases hg : env.get_pdf_url p with
  | error e => simp [hg] at h
  | ok r =>
    simp only [hg] at h
    cases ht : truthy r with
    | some url =>
      simp only [ht] at h
      cases h
      rfl
    | none =>
      simp only [ht] at h
      cases hc : env.collect_pdf p with
      | error e => simp [hc] at h
      | ok c =>
        simp only [hc] at h
        cases htc : truthy c with
        | none => simp [htc] at h
        | some content =>
          simp only [htc] at h
          cases hu : env.upload_pdf p content with
          | error e => simp [hu] at h
          | ok u =>
            simp only [hu] at h
            cases htu : truthy u with
            | some url =>
              simp only [htu] at h
              cases h
              rfl
            | none => simp [htu] at h

/-- A kept task yields the processed paper of a settled, successful
process_paper_pdf call. -/
theorem taskKeep_some (env : PdfEnv) (p q : Paper)
    (h : taskKeep env p = some q) :
    env.taskRaises p = false ∧ process_paper_pdf env p = some q := by
  unfold taskKeep batch_task_result at h
  by_cases hr : env.taskRaises p
  · simp [hr] at h
  · simp [hr] at h
    exact ⟨by simp [hr], h⟩

/-- A kept task only rewrites the content fields of its paper. -/
theorem taskKeep_strip (env : PdfEnv) (p q : Paper)
    (h : taskKeep env p = some q) :
    stripContent q = stripContent p :=
  process_paper_pdf_strip env p q (taskKeep_some env p q h).2

/-- Folding the per-batch filterMap over the chunked list is the filterMap
of the whole list, provided the fuel covers the list. -/
theorem chunk_foldl (env : PdfEnv) (bs : Nat) (fuel : Nat) :
    ∀ (xs acc : List Paper), xs.length ≤ fuel →
      (chunkAux (bs + 1) fuel xs).foldl
          (fun acc2 batch => acc2 ++ batch.filterMap (taskKeep env)) acc =
        acc ++ xs.filterMap (taskKeep env) := by
  induction fuel with
  | zero =>
    intro xs acc hx
    have hnil : xs = [] := List.length_eq_zero.mp (Nat.le_zero.mp hx)
    subst hnil
    simp [chunkAux]
  | succ fuel ih =>
    intro xs acc hx
    cases xs with
    | nil => simp [chunkAux]
    | cons x l =>
      simp only [chunkAux, List.foldl_cons]
      rw [ih (((x :: l).drop (bs + 1))) _
          (by simp only [List.length_drop, List.length_cons] at hx ⊢; omega),
        List.append_assoc, ← List.filterMap_append, List.take_append_drop]

/-- process_papers_batch_parallel is extensionally the filterMap of
taskKeep over the input, for any positive batch size: batches are taken in
input order, survivors are concatenated in order, and a per-paper failure
removes exactly that paper. -/
theorem process_batches_eq (env : PdfEnv) (papers : List Paper) (bs : Nat)
    (h : 0 < bs) :
    process_papers_batch_parallel env papers bs =
      papers.filterMap (taskKeep env) := by
  obtain ⟨k, rfl⟩ : ∃ k, bs = k + 1 := ⟨bs - 1, by omega⟩
  unfold process_papers_batch_parallel
  by_cases hp : papers.isEmpty
  · have hnil : papers = [] := List.isEmpty_iff.mp hp
    subst hnil
    simp
  · simp only [hp, Bool.false_eq_true, if_false]
    rw [chunk_foldl env k papers.length papers [] (Nat.le_refl _)]
    simp

/-- The survivors of a filterMap by taskKeep form, up to the content
fields, a subsequence of the input. -/
theorem filterMap_strip_sublist (env : PdfEnv) (l : List Paper) :
    ((l.filterMap (taskKeep env)).map stripContent).Sublist
      (l.map stripContent) := by
  induction l with
  | nil => simp
  | cons p l ih =>
    cases hk : taskKeep env p with
    | none =>
      simp only [List.filterMap_cons, hk, List.map_cons]
      exact ih.cons _
    | some q =>
      simp only [List.filterMap_cons, hk, List.map_cons,
        taskKeep_strip env p q hk]
      exact ih.cons₂ _

/-- Claim C9: the output of process_papers_batch_parallel(papers,
batch_size) is, up to the attached content fields, a subsequence of its
input: batches are processed sequentially in input order, surviving papers
are concatenated preserving relative input order, and a per-paper failure
(acquisition miss, failed persistence, or a task exception) removes only
that paper, never its batch or the run. -/
theorem batch_processing_subsequence (env : PdfEnv) (papers : List Paper)
    (bs : Nat) (h : 0 < bs) :
    process_papers_batch_parallel env papers bs =
      papers.filterMap (taskKeep env) ∧
    ((process_papers_batch_parallel env papers bs).map stripContent).Sublist
      (papers.map stripContent) := by
  have he := process_batches_eq env papers bs h
  exact ⟨he, by rw [he]; exact filterMap_strip_sublist env papers⟩

/-- Witness for C9 at a concrete input: batch size 1, one surviving paper
and one discarded paper. -/
theorem batch_processing_subsequence_witness :
    0 < 1 ∧
    (process_papers_batch_parallel wPdfEnv9 wPapers9 1 =
        wPapers9.filterMap (taskKeep wPdfEnv9) ∧
      ((process_papers_batch_parallel wPdfEnv9 wPapers9 1).map
          stripContent).Sublist (wPapers9.map stripContent)) :=
  ⟨by decide, batch_processing_subsequence wPdfEnv9 wPapers9 1 (by decide)⟩

/-
  Claims about MultiSourceSearchOrchestrator.search_papers.
-/

/-- Claim C2: search_papers(query_terms, domain, target_size = n) returns
at most n papers, for every behavior of the providers and collaborators. -/
theorem search_papers_bounded_output (env : OrchEnv) (q : List String)
    (n : Nat) : (search_papers env q n).length ≤ n := by
  unfold search_papers
  by_cases h : env.pdfStageRaises
  · simp [h]
  · simp only [h, if_false, Bool.false_eq_true]
    split
    · rw [List.length_take]
      exact Nat.min_le_left _ _
    · exact Nat.le_of_not_lt (by assumption)

/-- Claim C1: every paper in a search_papers result carries a non-empty
content reference, attached by a settled, successful acquisition (reuse of
a stored copy or collect-and-persist); a paper for which no durable content
was obtained and persisted never appears. -/
theorem search_papers_content_invariant (env : OrchEnv) (q : List String)
    (n : Nat) (p : Paper) (hp : p ∈ search_papers env q n) :
    (∃ url, p.pdfContentUrl = some url ∧ url ≠ "") ∧
    ∃ cand, batch_task_result env.pdf cand = Except.ok (some p) := by
  unfold search_papers at hp
  by_cases h : env.pdfStageRaises
  · simp [h] at hp
  · simp only [h, if_false, Bool.false_eq_true] at hp
    have hp2 : p ∈ process_papers_batch_parallel env.pdf
        (rank_papers (env.enrich (env.collected.take (2 * n))) q) 8 := by
      split at hp
      · exact List.take_subset _ _ hp
      · exact hp
    rw [process_batches_eq env.pdf _ 8 (by omega)] at hp2
    obtain ⟨a, _, hk⟩ := List.mem_filterMap.mp hp2
    obtain ⟨hr, hs⟩ := taskKeep_some env.pdf a p hk
    refine ⟨process_paper_pdf_url env.pdf a p hs, a, ?_⟩
    unfold batch_task_result
    simp [hr, hs]

/-- Witness for C1: a concrete run emitting one paper, whose content
reference is "u". -/
theorem search_papers_content_invariant_witness :
    wPaperOut ∈ search_papers wOrchEnv ["x"] 1 ∧
    ((∃ url, wPaperOut.pdfContentUrl = some url ∧ url ≠ "") ∧
      ∃ cand, batch_task_result wOrchEnv.pdf cand = Except.ok (some wPaperOut)) := by
  have hm : wPaperOut ∈ search_papers wOrchEnv ["x"] 1 := by decide
  exact ⟨hm, search_papers_content_invariant wOrchEnv ["x"] 1 wPaperOut hm⟩

/-- Claim C3: when the content-enforcement stage itself raises, the whole
run returns the empty list, never candidates lacking verified content. -/
theorem search_papers_empty_on_enforcement_failure (env : OrchEnv)
    (q : List String) (n : Nat) (h : env.pdfStageRaises = true) :
    search_papers env q n = [] := by
  simp [search_papers, h]

/-- Witness for C3 at a concrete environment with a raising enforcement
stage. -/
theorem search_papers_empty_on_enforcement_failure_witness :
    wOrchEnvFail.pdfStageRaises = true ∧
    search_papers wOrchEnvFail ["x"] 3 = [] :=
  ⟨rfl, search_papers_empty_on_enforcement_failure wOrchEnvFail ["x"] 3 rfl⟩

/-
  Lemmas about the stable descending sort of _rank_papers.
-/

/-- insertDesc inserts its paper, permuting nothing else. -/
theorem insertDesc_perm (f : Paper → Nat) (p : Paper) (l : List Paper) :
    (insertDesc f p l).Perm (p :: l) := by
  induction l with
  | nil => exact List.Perm.refl _
  | cons q qs ih =>
    simp only [insertDesc]
    split
    · exact (ih.cons q).trans (List.Perm.swap p q qs)
    · exact List.Perm.refl _

/-- sortDesc permutes its input. -/
theorem sortDesc_perm (f : Paper → Nat) (l : List Paper) :
    (sortDesc f l).Perm l := by
  induction l with
  | nil => exact List.Perm.refl _
  | cons p ps ih =>
    exact (insertDesc_perm f p (sortDesc f ps)).trans (ih.cons p)

/-- Membership in an insertDesc result. -/
theorem mem_insertDesc {f : Paper → Nat} {p x : Paper} {l : List Paper} :
    x ∈ insertDesc f p l ↔ x = p ∨ x ∈ l := by
  rw [(insertDesc_perm f p l).mem_iff, List.mem_cons]

/-- insertDesc preserves the descending-by-score invariant. -/
theorem insertDesc_pairwise (f : Paper → Nat) (p : Paper) (l : List Paper)
    (h : l.Pairwise (fun a b => f b ≤ f a)) :
    (insertDesc f p l).Pairwise (fun a b => f b ≤ f a) := by
  induction l with
  | nil => simp [insertDesc]
  | cons q qs ih =>
    rw [List.pairwise_cons] at h
    obtain ⟨h1, h2⟩ := h
    simp only [insertDesc]
    split
    · rename_i hlt
      rw [List.pairwise_cons]
      refine ⟨fun x hx => ?_, ih h2⟩
      rcases mem_insertDesc.mp hx with hxp | hxq
      · subst hxp
        exact Nat.le_of_lt hlt
      · exact h1 x hxq
    · rename_i hge
      rw [List.pairwise_cons]
      refine ⟨fun x hx => ?_, List.pairwise_cons.mpr ⟨h1, h2⟩⟩
      rcases List.mem_cons.mp hx with hxq | hxqs
      · subst hxq
        exact Nat.le_of_not_lt hge
      · exact Nat.le_trans (h1 x hxqs) (Nat.le_of_not_lt hge)

/-- sortDesc sorts by weakly descending score. -/
theorem sortDesc_pairwise (f : Paper → Nat) (l : List Paper) :
    (sortDesc f l).Pairwise (fun a b => f b ≤ f a) := by
  induction l with
  | nil => simp [sortDesc]
  | cons p ps ih => exact insertDesc_pairwise f p (sortDesc f ps) ih

/-- Inserting into a descending list puts the new paper in front of exactly
its own score class and leaves every score class otherwise untouched. -/
theorem insertDesc_filter (f : Paper → Nat) (p : Paper) (l : List Paper)
    (h : l.Pairwise (fun a b => f b ≤ f a)) (c : Nat) :
    (insertDesc f p l).filter (fun x => f x == c) =
      if f p = c then p :: l.filter (fun x => f x == c)
      else l.filter (fun x => f x == c) := by
  induction l with
  | nil =>
    by_cases hp : f p = c <;> simp [insertDesc, List.filter_cons, hp]
  | cons q qs ih =>
    rw [List.pairwise_cons] at h
    obtain ⟨h1, h2⟩ := h
    simp only [insertDesc]
    split
    · rename_i hlt
      by_cases hp : f p = c
      · have hq : ¬ (f q = c) := by omega
        simp only [List.filter_cons, hq, beq_iff_eq, if_false, ih h2, hp,
          if_true]
      · simp only [List.filter_cons, beq_iff_eq, ih h2, hp, if_false]
    · by_cases hp : f p = c <;>
        simp [List.filter_cons, hp]

/-- Stability of sortDesc, phrased per score class: the subsequence of
papers having any given score is unchanged by the sort. -/
theorem sortDesc_filter (f : Paper → Nat) (l : List Paper) (c : Nat) :
    (sortDesc f l).filter (fun x => f x == c) =
      l.filter (fun x => f x == c) := by
  induction l with
  | nil => rfl
  | cons p ps ih =>
    simp only [sortDesc]
    rw [insertDesc_filter f p (sortDesc f ps) (sortDesc_pairwise f ps) c]
    by_cases hp : f p = c <;> simp [List.filter_cons, hp, ih]

/-- Claim C5 (amended: the scored text joins title and abstract with a
single space, as the code does): _rank_papers permutes its input into
weakly descending paperScore order, and within each score class the
original discovery order is preserved exactly. -/
theorem rank_papers_stable_desc (papers : List Paper) (ts : List String) :
    (rank_papers papers ts).Perm papers ∧
    (rank_papers papers ts).Pairwise
      (fun a b => paperScore ts b ≤ paperScore ts a) ∧
    ∀ c : Nat, (rank_papers papers ts).filter (fun p => paperScore ts p == c) =
      papers.filter (fun p => paperScore ts p == c) := by
  unfold rank_papers
  by_cases hp : papers.isEmpty
  · have hnil : papers = [] := List.isEmpty_iff.mp hp
    subst hnil
    simp
  · simp only [hp, Bool.false_eq_true, if_false]
    exact ⟨sortDesc_perm _ papers, sortDesc_pairwise _ papers,
      fun c => sortDesc_filter _ papers c⟩

/-- Counterexample to C5 as stated: under the claim's score (occurrences
in the direct concatenation of title and abstract) the two papers tie, so
the claim demands discovery order [cexPaper1, cexPaper2]; the code scores
the space-joined text, breaks the tie, and returns them swapped. -/
theorem rank_papers_claim_counterexample :
    claimScore ["bc"] cexPaper1 = claimScore ["bc"] cexPaper2 ∧
    cexPaper1 ≠ cexPaper2 ∧
    rank_papers [cexPaper1, cexPaper2] ["bc"] = [cexPaper2, cexPaper1] := by
  decide

/-
  Lemmas about the provider retry loop and fan-out.
-/

/-- A timeout on the current attempt ends the loop at once with zero
results, whatever retry budget remains. -/
theorem retryLoop_timeout (backoff : Nat) (b : Nat → CallOutcome)
    (i r : Nat) (h : b i = CallOutcome.timeout) :
    retryLoop backoff b i r = ⟨Except.ok [], 1, []⟩ := by
  cases r <;> simp [retryLoop, h]

/-- A non-rate-limit error on the current attempt is re-raised at once,
with no retry and no backoff sleep, whatever retry budget remains. -/
theorem retryLoop_otherError (backoff : Nat) (b : Nat → CallOutcome)
    (i r : Nat) (h : b i = CallOutcome.otherError) :
    retryLoop backoff b i r = ⟨Except.error (), 1, []⟩ := by
  cases r <;> simp [retryLoop, h]

/-- When every attempt in the window is rate limited, the loop performs
the initial attempt plus exactly the allowed retries, sleeping the fixed
backoff between consecutive attempts, and settles on zero results. -/
theorem retryLoop_all_rateLimit (backoff : Nat) (b : Nat → CallOutcome) :
    ∀ (m i : Nat), (∀ j, j ≤ m → b (i + j) = CallOutcome.rateLimit) →
      retryLoop backoff b i m =
        ⟨Except.ok [], m + 1, List.replicate m backoff⟩ := by
  intro m
  induction m with
  | zero =>
    intro i h
    have h0 : b i = CallOutcome.rateLimit := by
      have := h 0 (Nat.le_refl 0)
      simpa using this
    simp [retryLoop, h0]
  | succ m ih =>
    intro i h
    have h0 : b i = CallOutcome.rateLimit := by
      have := h 0 (Nat.zero_le _)
      simpa using this
    have hrec := ih (i + 1) (fun j hj => by
      have := h (j + 1) (Nat.succ_le_succ hj)
      have harith : i + (j + 1) = i + 1 + j := by omega
      rwa [harith] at this)
    simp [retryLoop, h0, hrec, List.replicate_succ]

/-- Skipping an empty result in the combine loop is the same as appending
its (empty) tagged contribution: the loop's step function is plain tagged
concatenation. -/
theorem combine_step_eq :
    (fun (acc2 : List Paper) (pr : String × List Paper) =>
        if pr.2.isEmpty then acc2 else acc2 ++ tagSource pr.1 pr.2) =
      fun acc2 pr => acc2 ++ tagSource pr.1 pr.2 := by
  funext acc2 pr
  by_cases he : pr.2.isEmpty
  · have hnil : pr.2 = [] := List.isEmpty_iff.mp he
    simp [he, hnil, tagSource]
  · simp [he]

/-- The combine loop over sources zipped with their own results is the
in-order concatenation of the tagged per-source results. -/
theorem combine_foldl (f : String → List Paper) :
    ∀ (ss : List String) (acc : List Paper),
      (ss.zip (ss.map f)).foldl
          (fun acc2 pr => acc2 ++ tagSource pr.1 pr.2) acc =
        acc ++ ss.flatMap (fun s => tagSource s (f s)) := by
  intro ss
  induction ss with
  | nil => intro acc; simp
  | cons s ss ih =>
    intro acc
    simp only [List.map_cons, List.zip_cons_cons, List.foldl_cons,
      List.flatMap_cons]
    rw [ih, List.append_assoc]

/-- _search_all_sources equals the in-order concatenation of every active
source's tagged safe result. -/
theorem search_all_sources_eq (cfg : SearchConfig) (sources : List String)
    (presentOf : String → Bool) (env : String → Nat → CallOutcome) :
    search_all_sources cfg sources presentOf env =
      sources.flatMap
        (fun s => tagSource s (safe_source_search cfg (presentOf s) (env s))) := by
  unfold search_all_sources combine_results
  rw [combine_step_eq, combine_foldl]
  simp

/-- Claim C4: _safe_source_search absorbs every provider behavior — a
timeout yields [], a non-rate-limit exception is re-raised inside and
caught by the outer handler yielding [] (never propagating) — and
_search_all_sources merges every source's settled result in order, so one
source's behavior never affects a sibling's contribution. -/
theorem safe_source_search_isolation
    (cfg : SearchConfig) (present : Bool)
    (bT bE : Nat → CallOutcome)
    (hT : bT 0 = CallOutcome.timeout)
    (hE : bE 0 = CallOutcome.otherError)
    (sources : List String) (presentOf : String → Bool)
    (env env2 : String → Nat → CallOutcome) (s0 : String)
    (hagree : ∀ t, t ≠ s0 → env2 t = env t) :
    safe_source_search cfg present bT = [] ∧
    (retryLoop cfg.rate_limit_backoff_seconds bE 0
        cfg.max_rate_limit_retries).result = Except.error () ∧
    safe_source_search cfg present bE = [] ∧
    search_all_sources cfg sources presentOf env =
      sources.flatMap
        (fun s => tagSource s (safe_source_search cfg (presentOf s) (env s))) ∧
    (∀ t, t ∈ sources → t ≠ s0 →
      tagSource t (safe_source_search cfg (presentOf t) (env2 t)) =
        tagSource t (safe_source_search cfg (presentOf t) (env t))) := by
  refine ⟨?_, ?_, ?_, search_all_sources_eq cfg sources presentOf env, ?_⟩
  · cases present
    · rfl
    · simp [safe_source_search, retryLoop_timeout _ bT 0 _ hT]
  · rw [retryLoop_otherError _ bE 0 _ hE]
  · cases present
    · rfl
    · simp [safe_source_search, retryLoop_otherError _ bE 0 _ hE]
  · intro t _ ht
    rw [hagree t ht]

/-- Witness for C4 at concrete behaviors: a timing-out provider, a raising
provider, and two environments differing only at source "arXiv". -/
theorem safe_source_search_isolation_witness :
    (wTimeoutB 0 = CallOutcome.timeout ∧
      wErrB 0 = CallOutcome.otherError ∧
      ∀ t, t ≠ "arXiv" → wEnvB t = wEnvA t) ∧
    (safe_source_search wCfg true wTimeoutB = [] ∧
      (retryLoop wCfg.rate_limit_backoff_seconds wErrB 0
          wCfg.max_rate_limit_retries).result = Except.error () ∧
      safe_source_search wCfg true wErrB = [] ∧
      search_all_sources wCfg wSources wPresent wEnvA =
        wSources.flatMap
          (fun s => tagSource s (safe_source_search wCfg (wPresent s) (wEnvA s))) ∧
      (∀ t, t ∈ wSources → t ≠ "arXiv" →
        tagSource t (safe_source_search wCfg (wPresent t) (wEnvB t)) =
          tagSource t (safe_source_search wCfg (wPresent t) (wEnvA t)))) :=
  ⟨⟨rfl, rfl, fun t ht => by funext n; simp [wEnvA, wEnvB, ht]⟩,
    safe_source_search_isolation wCfg true wTimeoutB wErrB rfl rfl
      wSources wPresent wEnvA wEnvB "arXiv"
      (fun t ht => by funext n; simp [wEnvA, wEnvB, ht])⟩

/-- Claim C6: a rate-limited provider call is retried up to
max_rate_limit_retries times with the fixed backoff slept between
attempts, and exhausting the retries yields zero results for that provider
and query; any other provider error is never retried and likewise yields
zero results. -/
theorem rate_limit_retry_policy (cfg : SearchConfig)
    (b bE : Nat → CallOutcome)
    (hb : ∀ i, i ≤ cfg.max_rate_limit_retries → b i = CallOutcome.rateLimit)
    (hbE : bE 0 = CallOutcome.otherError) :
    retryLoop cfg.rate_limit_backoff_seconds b 0 cfg.max_rate_limit_retries =
      ⟨Except.ok [], cfg.max_rate_limit_retries + 1,
        List.replicate cfg.max_rate_limit_retries
          cfg.rate_limit_backoff_seconds⟩ ∧
    safe_source_search cfg true b = [] ∧
    (retryLoop cfg.rate_limit_backoff_seconds bE 0
        cfg.max_rate_limit_retries).attempts = 1 ∧
    safe_source_search cfg true bE = [] := by
  have hloop := retryLoop_all_rateLimit cfg.rate_limit_backoff_seconds b
    cfg.max_rate_limit_retries 0 (fun j hj => by simpa using hb j hj)
  refine ⟨hloop, ?_, ?_, ?_⟩
  · simp [safe_source_search, hloop]
  · rw [retryLoop_otherError _ bE 0 _ hbE]
  · simp [safe_source_search, retryLoop_otherError _ bE 0 _ hbE]

/-- Witness for C6 with the config defaults: an always-rate-limited
provider and an always-raising provider. -/
theorem rate_limit_retry_policy_witness :
    ((∀ i, i ≤ wCfg.max_rate_limit_retries → wRateB i = CallOutcome.rateLimit) ∧
      wErrB 0 = CallOutcome.otherError) ∧
    (retryLoop wCfg.rate_limit_backoff_seconds wRateB 0
        wCfg.max_rate_limit_retries =
      ⟨Except.ok [], wCfg.max_rate_limit_retries + 1,
        List.replicate wCfg.max_rate_limit_retries
          wCfg.rate_limit_backoff_seconds⟩ ∧
      safe_source_search wCfg true wRateB = [] ∧
      (retryLoop wCfg.rate_limit_backoff_seconds wErrB 0
          wCfg.max_rate_limit_retries).attempts = 1 ∧
      safe_source_search wCfg true wErrB = []) :=
  ⟨⟨fun _ _ => rfl, rfl⟩,
    rate_limit_retry_policy wCfg wRateB wErrB (fun _ _ => rfl) rfl⟩

/-
  Lemmas about the message handler and the consumer dispatch.
-/

/-- A body missing the request identifier, or whose queryTerms is absent,
not a list, or empty, fails validation. -/
theorem validate_false_of_invalid (md : MessageData)
    (h : md.projectId = none ∨ queryTermsInvalid md = true) :
    validate_websearch_message md = false := by
  unfold validate_websearch_message
  rcases h with hpid | hqt
  · simp [hpid]
  · unfold queryTermsInvalid at hqt
    cases hp : md.projectId with
    | none => rfl
    | some v =>
      cases hq : md.queryTerms with
      | none => rfl
      | some jf =>
        cases jf with
        | str s => rfl
        | other => rfl
        | list xs =>
          rw [hq] at hqt
          have hxs : xs = [] := by simpa using hqt
          simp [hxs]

/-- Claim C7: a delivery whose parsed body misses the request identifier
or whose query-terms field is not a non-empty list is rejected without
requeue, and the orchestrator is never invoked for it. -/
theorem invalid_message_rejected_without_requeue (env : HandlerEnv)
    (md : MessageData)
    (h : md.projectId = none ∨ queryTermsInvalid md = true) :
    handle_message env (some md) = ([Event.rejected false], false) ∧
    Event.orchInvoked ∉ (handle_message env (some md)).1 := by
  have hv := validate_false_of_invalid md h
  constructor
  · simp [handle_message, hv]
  · simp [handle_message, hv]

/-- Witness for C7: a body with projectId present but queryTerms = []. -/
theorem invalid_message_rejected_without_requeue_witness :
    (wBadMsg.projectId = none ∨ queryTermsInvalid wBadMsg = true) ∧
    (handle_message wHandlerEnv (some wBadMsg) = ([Event.rejected false], false) ∧
      Event.orchInvoked ∉ (handle_message wHandlerEnv (some wBadMsg)).1) :=
  ⟨Or.inr rfl,
    invalid_message_rejected_without_requeue wHandlerEnv wBadMsg (Or.inr rfl)⟩

/-- Claim C8: once the handler has a connection manager, an acknowledged
delivery is acknowledged only after the orchestrator run completed and the
publish call completed; the only trace containing ack is the full
invoke-complete-publish-complete-ack sequence. -/
theorem ack_after_process_and_publish (env : HandlerEnv)
    (parsed : Option MessageData) (hcm : env.hasCM = true)
    (hack : Event.acked ∈ (handle_message env parsed).1) :
    (handle_message env parsed).1 =
      [Event.orchInvoked, Event.orchCompleted, Event.publishInvoked,
        Event.publishCompleted, Event.acked] := by
  cases parsed with
  | none => simp [handle_message] at hack
  | some md =>
    by_cases hv : validate_websearch_message md
    · simp only [handle_message, hv, if_true] at hack ⊢
      cases hpr : env.process md with
      | error e => simp [hpr] at hack
      | ok res =>
        simp only [hpr, hcm, if_true] at hack ⊢
        cases hpub : env.publish res with
        | error e => simp [hpub] at hack
        | ok flag => simp [hpub]
    · simp [handle_message, hv] at hack

/-- Witness for C8: a valid body with succeeding collaborators is
acknowledged, after the full sequence. -/
theorem ack_after_process_and_publish_witness :
    (wHandlerEnv.hasCM = true ∧
      Event.acked ∈ (handle_message wHandlerEnv (some wGoodMsg)).1) ∧
    (handle_message wHandlerEnv (some wGoodMsg)).1 =
      [Event.orchInvoked, Event.orchCompleted, Event.publishInvoked,
        Event.publishCompleted, Event.acked] :=
  ⟨⟨rfl, by decide⟩,
    ack_after_process_and_publish wHandlerEnv (some wGoodMsg) rfl (by decide)⟩

/-- Claim C10: with the websearch handler registered for "scholarai" and
installed as the default, get_handler answers every message-type string
with that handler, so the consumer's no-handler reject branch is
unreachable and every delivery, whatever its routing key, is dispatched to
the websearch handler. -/
theorem default_handler_covers_all_types {H : Type} (w : H) :
    (∀ mt : String, get_handler (setup_handlers w) mt = some w) ∧
    ∀ rk : Option String,
      process_message (setup_handlers w) rk = Dispatch.handled w := by
  have hg : ∀ mt : String, get_handler (setup_handlers w) mt = some w := by
    intro mt
    simp only [setup_handlers, set_default_handler, register_handler,
      get_handler, List.lookup]
    cases h : (mt == "scholarai") <;> simp [h]
  refine ⟨hg, fun rk => ?_⟩
  unfold process_message
  rw [hg]
